import Mathlib

/-!
Shallow embedding of the HeterogeneousLBSimulator repository
(src/clock.py, src/traffic.py, src/replica.py, src/load_balancer.py,
src/simulator.py), together with theorems settling the claims about it.

Python objects are modelled as immutable Lean structures; a Python method
that mutates `self` becomes a Lean function returning the updated value.
Machine integers are modelled as `Int` (Python ints are unbounded, so no
wrap-around is involved).
-/

namespace LBSim

/-- `src/traffic.py`, class `Traffic`.  Fields are exactly the instance
attributes set in `Traffic.__init__` that the simulation logic reads
(`client_location` and the decorator-added `id` play no role in any claim;
`id` only gives Python objects their identity, which the list model
represents positionally). -/
structure Traffic where
  execution_time : Int
  remaining_processing_time : Int
  start_time : Option Int
  finish_time : Option Int
  expired_time : Option Int
  expired : Bool
deriving DecidableEq, Repr

/-- `Traffic.__init__(execution_time, expired_time=None, ...)`:
`remaining_processing_time` starts at `execution_time`, times unset,
`expired` false. -/
def Traffic.init (execution_time : Int) (expired_time : Option Int) : Traffic :=
  { execution_time := execution_time
    remaining_processing_time := execution_time
    start_time := none
    finish_time := none
    expired_time := expired_time
    expired := false }

/-- `Traffic.set_start_time`. -/
def Traffic.set_start_time (t : Traffic) (start_time : Int) : Traffic :=
  { t with start_time := some start_time }

/-- `Traffic.set_finish_time`. -/
def Traffic.set_finish_time (t : Traffic) (finished_time : Int) : Traffic :=
  { t with finish_time := some finished_time }

/-- `Traffic.set_expired_time`. -/
def Traffic.set_expired_time (t : Traffic) (expired_time : Option Int) : Traffic :=
  { t with expired_time := expired_time }

/-- `Traffic.finished(current_tick)`: returns the boolean result and the
(possibly) updated object.  Mirrors the source line by line: an early
`True` when `remaining_processing_time <= 0`; otherwise, when both
`start_time` and `expired_time` are set and
`current_tick >= start_time + expired_time`, it latches `expired = True`
and returns `True`; otherwise `False`. -/
def Traffic.finished (t : Traffic) (current_tick : Int) : Bool × Traffic :=
  if t.remaining_processing_time ≤ 0 then (true, t)
  else
    match t.start_time, t.expired_time with
    | some s, some e =>
        if current_tick ≥ s + e then (true, { t with expired := true })
        else (false, t)
    | _, _ => (false, t)

/-- `src/clock.py`, class `Clock`: a single integer `tick`. -/
structure Clock where
  tick : Int
deriving DecidableEq, Repr

/-- `Clock.__init__`: starts from `-1`, since the first `step` increments it. -/
def Clock.init : Clock := ⟨-1⟩

/-- `Clock.step`: increment `tick` and return it (new state, returned value). -/
def Clock.step (c : Clock) : Clock × Int :=
  (⟨c.tick + 1⟩, c.tick + 1)

/-- `n` successive calls of `Clock.step`, keeping the final state. -/
def Clock.stepN (c : Clock) : Nat → Clock
  | 0 => c
  | n + 1 => (Clock.stepN c n).step.1

/-- The first loop of `AcceleratorReplica.step` (src/replica.py):

    tot_compute_used = 0
    for traffic in self.queue:
        compute_on_traffic = min(
            traffic.remaining_processing_time - tot_compute_used,
            self.accelerator.value)
        traffic.remaining_processing_time -= compute_on_traffic
        tot_compute_used += compute_on_traffic
        if tot_compute_used == self.accelerator.value:
            break

`capacity` is `self.accelerator.value`; the list returned is the queue
after the in-place updates (elements after a `break` are untouched). -/
def allocLoop (capacity : Int) : Int → List Traffic → List Traffic
  | _, [] => []
  | tot_compute_used, t :: rest =>
    let compute_on_traffic :=
      min (t.remaining_processing_time - tot_compute_used) capacity
    let t' := { t with
      remaining_processing_time := t.remaining_processing_time - compute_on_traffic }
    let tot' := tot_compute_used + compute_on_traffic
    if tot' = capacity then t' :: rest
    else t' :: allocLoop capacity tot' rest

/-- The second loop of `AcceleratorReplica.step`:

    finished_traffics = []
    for traffic in self.queue:
        if traffic.remaining_processing_time == 0:
            self.queue.remove(traffic)
            finished_traffics.append(traffic.set_finish_time(self.tick))
    return finished_traffics

Python's `list.remove` removes by `==`, which for `Traffic` objects is
identity; every object occurs once in the queue, so `remove(traffic)`
deletes exactly the element the iterator is standing on.  The `for`
iterator then advances its index over the shrunk list, so the element
that followed a removed one is skipped this pass.  The translation makes
that iterator behaviour explicit; it returns (queue after, finished). -/
def removeLoop (tick : Int) : List Traffic → List Traffic × List Traffic
  | [] => ([], [])
  | t :: rest =>
    if t.remaining_processing_time = 0 then
      match rest with
      | [] => ([], [t.set_finish_time tick])
      | u :: rest2 =>
        let p := removeLoop tick rest2
        (u :: p.1, t.set_finish_time tick :: p.2)
    else
      let p := removeLoop tick rest
      (t :: p.1, p.2)

/-- `AcceleratorReplica.step(traffics)`: extend the queue (the base-class
`Replica.step`), run the capacity-allocation loop, then the
finished-collection loop.  Returns (queue after, finished traffics);
`tick` is `self.tick`, read from the registered shared clock. -/
def acceleratorStep (capacity tick : Int) (queue traffics : List Traffic) :
    List Traffic × List Traffic :=
  removeLoop tick (allocLoop capacity 0 (queue ++ traffics))

/-!
`src/load_balancer.py`.  Registered replicas are identified by their
position in `self.replicas` (registration order); the Python return value
`Dict[Replica, List[Traffic]]` — whose keys are the dict-insertion-ordered
replicas, i.e. `self.replicas` in order — is modelled as a
`List (List Traffic)` parallel to the replica list.
-/

/-- The loop of `RoundRobinLoadBalancer.step`:

    for t in traffic:
        target_replica = self.replicas[self.idx]
        self.idx = (self.idx + 1) % len(self.replicas)
        replica2traffics[target_replica].append(t)

`n` is `len(self.replicas)` (constant during the call).  Returns the final
`self.idx` and the buckets.  (For `n = 0` and nonempty traffic the Python
raises `IndexError`; all theorems below assume at least one registered
replica, as `simulator_interface.py` enforces.) -/
def rrStepLoop (n : Nat) : Nat → List Traffic → List (List Traffic) →
    Nat × List (List Traffic)
  | idx, [], buckets => (idx, buckets)
  | idx, t :: rest, buckets =>
      rrStepLoop n ((idx + 1) % n) rest (buckets.set idx (buckets.getD idx [] ++ [t]))

/-- `RoundRobinLoadBalancer.step`: start from
`replica2traffics = {replica: [] for replica in self.replicas}` and run the
loop from the stored cursor `self.idx`. -/
def rrStep (n idx : Nat) (traffic : List Traffic) : Nat × List (List Traffic) :=
  rrStepLoop n idx traffic (List.replicate n [])

/-- Python's builtin `min(iterable, key=key)` specialised to the index range
`0, 1, ..., n-1`: scan keeping the current best, replacing it only when the
candidate's key is strictly smaller — so among tied keys the first
(lowest-index) element wins.  (Python raises `ValueError` for `n = 0`.) -/
def pyMinRange (key : Nat → Nat) (n : Nat) : Nat :=
  (List.range n).foldl (fun best i => if key i < key best then i else best) 0

/-- The loop of `LeastLoadLoadBalancer.step`:

    def _get_replica_queue_length(replica):
        return len(replica.queue) + len(replica2traffics[replica])
    for t in traffic:
        sel = min(self.replicas, key=_get_replica_queue_length)
        replica2traffics[sel].append(t)

`queues` are the replicas' queues in registration order (not touched by
the call). -/
def llStepLoop (queues : List (List Traffic)) :
    List Traffic → List (List Traffic) → List (List Traffic)
  | [], buckets => buckets
  | t :: rest, buckets =>
      let sel := pyMinRange
        (fun i => (queues.getD i []).length + (buckets.getD i []).length)
        queues.length
      llStepLoop queues rest (buckets.set sel (buckets.getD sel [] ++ [t]))

/-- `LeastLoadLoadBalancer.step`: empty buckets for every registered
replica, then the assignment loop. -/
def llStep (queues : List (List Traffic)) (traffic : List Traffic) :
    List (List Traffic) :=
  llStepLoop queues traffic (List.replicate queues.length [])

/-- The full state a load-balancer `step` call can see through `self`:
the shared clock, the registered replicas' queues, and (for round-robin)
the rotation cursor.  Threading it through the call makes the frame of the
call explicit. -/
structure LBState where
  clock : Clock
  queues : List (List Traffic)
  rrIdx : Nat
deriving DecidableEq, Repr

/-- `RoundRobinLoadBalancer.step` over the full state: the body reads
`self.replicas` and writes only `self.idx`. -/
def rrStepFull (s : LBState) (traffic : List Traffic) :
    LBState × List (List Traffic) :=
  let r := rrStep s.queues.length s.rrIdx traffic
  ({ s with rrIdx := r.1 }, r.2)

/-- `LeastLoadLoadBalancer.step` over the full state: the body reads
`self.replicas` and the queue lengths and writes nothing. -/
def llStepFull (s : LBState) (traffic : List Traffic) :
    LBState × List (List Traffic) :=
  (s, llStep s.queues traffic)

/-!
`src/simulator.py`, `_simulate_one`, specialised to the default
round-robin balancer and `AcceleratorReplica`s.  One iteration of the
`while True:` loop is:

    tick = clock.step()
    new_traffic = [t for client in clients for t in client.observe()]
    replica2traffics = lb.step(new_traffic)
    finished_traffics = []
    for replica, traffics in replica2traffics.items():
        finished_traffics.extend(replica.step(traffics))
    success_traffics = [t for t in finished_traffics if not t.expired]
    failure_traffics = [t for t in finished_traffics if t.expired]

`client.observe()` wraps each produced `Traffic` with
`set_start_time(tick).set_expired_time(client.traffic_expired_time)`;
new traffic per tick is given here as a list of execution times together
with the client's `traffic_expired_time`, which is exactly the data a
`FixedTrafficClient` contributes deterministically.
-/

/-- Step every replica with its assigned bucket (the dict iterates in
registration order), collecting the new queues and all finished traffic. -/
def stepReplicas (tick : Int) :
    List Int → List (List Traffic) → List (List Traffic) →
    List (List Traffic) × List Traffic
  | cap :: caps, q :: qs, b :: bs =>
    let r := acceleratorStep cap tick q b
    let rest := stepReplicas tick caps qs bs
    (r.1 :: rest.1, r.2 ++ rest.2)
  | _, _, _ => ([], [])

/-- State carried across ticks of `_simulate_one`: the clock, the
round-robin cursor, and the replica queues. -/
structure SimState where
  clock : Clock
  rrIdx : Nat
  queues : List (List Traffic)
deriving DecidableEq, Repr

/-- One iteration of the `_simulate_one` loop.  `caps` are the replicas'
`accelerator.value`s (registration order), `clientExp` the client's
`traffic_expired_time`, `execs` the execution times of the traffic the
clients produce this tick.  Returns the new state, the tick's
`success_traffics` and its `failure_traffics`. -/
def simTick (caps : List Int) (clientExp : Option Int) (execs : List Int)
    (s : SimState) : SimState × List Traffic × List Traffic :=
  let c := s.clock.step
  let tick := c.2
  let new_traffic := execs.map (fun e =>
    ((Traffic.init e none).set_start_time tick).set_expired_time clientExp)
  let r := rrStep s.queues.length s.rrIdx new_traffic
  let stepped := stepReplicas tick caps s.queues r.2
  let finished_traffics := stepped.2
  let success_traffics := finished_traffics.filter (fun t => !t.expired)
  let failure_traffics := finished_traffics.filter (fun t => t.expired)
  (⟨c.1, r.1, stepped.1⟩, success_traffics, failure_traffics)

/-- Run the loop over a per-tick schedule of client-produced execution
times, collecting each tick's `failure_traffics`. -/
def simRun (caps : List Int) (clientExp : Option Int) :
    List (List Int) → SimState → SimState × List (List Traffic)
  | [], s => (s, [])
  | execs :: rest, s =>
    let r := simTick caps clientExp execs s
    let out := simRun caps clientExp rest r.1
    (out.1, r.2.2 :: out.2)

/-- The initial state of `_simulate_one`: fresh clock, round-robin cursor
0, all replica queues empty. -/
def simInit (numReplicas : Nat) : SimState :=
  ⟨Clock.init, 0, List.replicate numReplicas []⟩

/-! ### Helper lemmas -/

theorem getD_set_lt {α : Type} :
    ∀ (l : List α) (i j : Nat) (x d : α), i < l.length →
      (l.set i x).getD j d = if i = j then x else l.getD j d := by
  intro l
  induction l with
  | nil => intro i j x d h; simp at h
  | cons a l ih =>
    intro i j x d h
    cases i with
    | zero =>
      cases j with
      | zero => simp
      | succ j => simp
    | succ i =>
      cases j with
      | zero => simp
      | succ j =>
        simp only [List.set, List.getD_cons_succ]
        rw [ih i j x d (by simpa using h)]
        by_cases hij : i = j
        · simp [hij]
        · have hij' : i + 1 ≠ j + 1 := by omega
          simp [hij, hij']

theorem flatten_replicate_nil {α : Type} :
    ∀ n : Nat, (List.replicate n ([] : List α)).flatten = [] := by
  intro n
  induction n with
  | zero => rfl
  | succ n ih => simpa [List.replicate] using ih

theorem flatten_set_perm {α : Type} (t : α) :
    ∀ (buckets : List (List α)) (i : Nat), i < buckets.length →
      List.Perm (buckets.set i (buckets.getD i [] ++ [t])).flatten (buckets.flatten ++ [t]) := by
  intro buckets
  induction buckets with
  | nil => intro i h; simp at h
  | cons b bs ih =>
    intro i h
    cases i with
    | zero =>
      simp only [List.set, List.getD_cons_zero, List.flatten_cons, List.append_assoc]
      exact List.Perm.append_left b (List.perm_append_comm)
    | succ i =>
      simp only [List.set, List.getD_cons_succ, List.flatten_cons, List.append_assoc]
      exact List.Perm.append_left b (by simpa [List.append_assoc] using ih i (by simpa using h))

theorem map_length_getD :
    ∀ (qs : List (List Traffic)) (i : Nat),
      (qs.map List.length).getD i 0 = (qs.getD i []).length := by
  intro qs
  induction qs with
  | nil => intro i; simp
  | cons q qs ih =>
    intro i
    cases i with
    | zero => simp
    | succ i => simpa using ih i

/-! ### Round-robin lemmas -/

theorem rr_len_aux (n : Nat) :
    ∀ (ts : List Traffic) (idx : Nat) (buckets : List (List Traffic)),
      (rrStepLoop n idx ts buckets).2.length = buckets.length := by
  intro ts
  induction ts with
  | nil => intro idx buckets; rfl
  | cons t rest ih =>
    intro idx buckets
    simpa [rrStepLoop] using ih ((idx + 1) % n) (buckets.set idx (buckets.getD idx [] ++ [t]))

theorem rr_idx_aux (n : Nat) :
    ∀ (ts : List Traffic) (idx : Nat) (buckets : List (List Traffic)), idx < n →
      (rrStepLoop n idx ts buckets).1 = (idx + ts.length) % n := by
  intro ts
  induction ts with
  | nil =>
    intro idx buckets h
    simp [rrStepLoop, Nat.mod_eq_of_lt h]
  | cons t rest ih =>
    intro idx buckets h
    have hn : 0 < n := Nat.lt_of_le_of_lt (Nat.zero_le idx) h
    have h1 := ih ((idx + 1) % n) (buckets.set idx (buckets.getD idx [] ++ [t]))
      (Nat.mod_lt _ hn)
    simp only [rrStepLoop]
    rw [h1, Nat.mod_add_mod]
    congr 1
    simp only [List.length_cons]
    omega

theorem rr_bucket_mono (n : Nat) :
    ∀ (ts : List Traffic) (idx : Nat) (buckets : List (List Traffic)) (j : Nat) (x : Traffic),
      x ∈ buckets.getD j [] → x ∈ (rrStepLoop n idx ts buckets).2.getD j [] := by
  intro ts
  induction ts with
  | nil => intro idx buckets j x hx; exact hx
  | cons t rest ih =>
    intro idx buckets j x hx
    refine ih ((idx + 1) % n) _ j x ?_
    by_cases hidx : idx < buckets.length
    · rw [getD_set_lt _ _ _ _ _ hidx]
      by_cases hij : idx = j
      · subst hij
        simp only [if_pos rfl]
        exact List.mem_append_left _ hx
      · simpa [hij] using hx
    · rw [List.set_eq_of_length_le (Nat.le_of_not_lt hidx)]
      exact hx

theorem rr_mem_aux (n : Nat) (hn : 0 < n) :
    ∀ (ts : List Traffic) (idx : Nat) (buckets : List (List Traffic)),
      idx < n → buckets.length = n →
      ∀ (i : Nat) (h : i < ts.length),
        ts.get ⟨i, h⟩ ∈ (rrStepLoop n idx ts buckets).2.getD ((idx + i) % n) [] := by
  intro ts
  induction ts with
  | nil => intro idx buckets _ _ i h; simp at h
  | cons t rest ih =>
    intro idx buckets hidx hb i h
    cases i with
    | zero =>
      simp only [List.get, rrStepLoop, Nat.add_zero, Nat.mod_eq_of_lt hidx]
      refine rr_bucket_mono n rest _ _ idx t ?_
      rw [getD_set_lt _ _ _ _ _ (by rw [hb]; exact hidx)]
      simp
    | succ i =>
      have h' : i < rest.length := by simpa using h
      have := ih ((idx + 1) % n) (buckets.set idx (buckets.getD idx [] ++ [t]))
        (Nat.mod_lt _ hn) (by simpa using hb) i h'
      simp only [rrStepLoop, List.get]
      have heq : ((idx + 1) % n + i) % n = (idx + (i + 1)) % n := by
        rw [Nat.mod_add_mod]
        congr 1
        omega
      rw [← heq]
      exact this

theorem rr_flatten_aux (n : Nat) :
    ∀ (ts : List Traffic) (idx : Nat) (buckets : List (List Traffic)),
      buckets.length = n → idx < n →
      List.Perm (rrStepLoop n idx ts buckets).2.flatten (buckets.flatten ++ ts) := by
  intro ts
  induction ts with
  | nil => intro idx buckets _ _; simp [rrStepLoop]
  | cons t rest ih =>
    intro idx buckets hb hidx
    have hn : 0 < n := Nat.lt_of_le_of_lt (Nat.zero_le idx) hidx
    have step := ih ((idx + 1) % n) (buckets.set idx (buckets.getD idx [] ++ [t]))
      (by simpa using hb) (Nat.mod_lt _ hn)
    refine List.Perm.trans step ?_
    have hset := flatten_set_perm t buckets idx (by rw [hb]; exact hidx)
    have e : buckets.flatten ++ t :: rest = (buckets.flatten ++ [t]) ++ rest := by simp
    rw [e]
    exact List.Perm.append_right rest hset

/-! ### Least-load lemmas -/

theorem pyMinRange_spec (key : Nat → Nat) :
    ∀ n : Nat, 0 < n →
      pyMinRange key n < n ∧
      (∀ j, j < n → key (pyMinRange key n) ≤ key j) ∧
      (∀ j, j < pyMinRange key n → key (pyMinRange key n) < key j) := by
  intro n
  induction n with
  | zero => intro h; simp at h
  | succ n ih =>
    intro _
    rcases Nat.eq_zero_or_pos n with hz | hpos
    · subst hz
      have e : pyMinRange key (0 + 1) = 0 := by
        simp [pyMinRange, List.range_succ]
      refine ⟨by simp [e], ?_, ?_⟩
      · intro j hj
        have hj0 : j = 0 := by omega
        subst hj0
        simp [e]
      · intro j hj
        rw [e] at hj
        omega
    · obtain ⟨hm, hle, hfirst⟩ := ih hpos
      have e : pyMinRange key (n + 1) =
          if key n < key (pyMinRange key n) then n else pyMinRange key n := by
        simp [pyMinRange, List.range_succ, List.foldl_append]
      by_cases hlt : key n < key (pyMinRange key n)
      · rw [e, if_pos hlt]
        refine ⟨by omega, ?_, ?_⟩
        · intro j hj
          rcases Nat.lt_succ_iff_lt_or_eq.mp hj with h | h
          · exact Nat.le_of_lt (Nat.lt_of_lt_of_le hlt (hle j h))
          · subst h; exact Nat.le_refl _
        · intro j hj
          exact Nat.lt_of_lt_of_le hlt (hle j hj)
      · rw [e, if_neg hlt]
        refine ⟨Nat.lt_trans hm (Nat.lt_succ_self n), ?_, hfirst⟩
        intro j hj
        rcases Nat.lt_succ_iff_lt_or_eq.mp hj with h | h
        · exact hle j h
        · subst h; exact Nat.le_of_not_lt hlt

theorem ll_len_aux (queues : List (List Traffic)) :
    ∀ (ts : List Traffic) (buckets : List (List Traffic)),
      (llStepLoop queues ts buckets).length = buckets.length := by
  intro ts
  induction ts with
  | nil => intro buckets; rfl
  | cons t rest ih =>
    intro buckets
    simp only [llStepLoop]
    rw [ih]
    simp

theorem ll_flatten_aux (queues : List (List Traffic)) (hq : 0 < queues.length) :
    ∀ (ts : List Traffic) (buckets : List (List Traffic)),
      buckets.length = queues.length →
      List.Perm (llStepLoop queues ts buckets).flatten (buckets.flatten ++ ts) := by
  intro ts
  induction ts with
  | nil => intro buckets _; simp [llStepLoop]
  | cons t rest ih =>
    intro buckets hb
    have hsel := (pyMinRange_spec
      (fun i => (queues.getD i []).length + (buckets.getD i []).length)
      queues.length hq).1
    have step := ih
      (buckets.set
        (pyMinRange (fun i => (queues.getD i []).length + (buckets.getD i []).length)
          queues.length)
        (buckets.getD
          (pyMinRange (fun i => (queues.getD i []).length + (buckets.getD i []).length)
            queues.length) [] ++ [t]))
      (by simpa using hb)
    refine List.Perm.trans step ?_
    have hset := flatten_set_perm t buckets
      (pyMinRange (fun i => (queues.getD i []).length + (buckets.getD i []).length)
        queues.length)
      (by rw [hb]; exact hsel)
    have e : buckets.flatten ++ t :: rest = (buckets.flatten ++ [t]) ++ rest := by simp
    rw [e]
    exact List.Perm.append_right rest hset

theorem ll_congr_aux :
    ∀ (q1 q2 : List (List Traffic)),
      q1.map List.length = q2.map List.length →
      ∀ (ts : List Traffic) (buckets : List (List Traffic)),
        llStepLoop q1 ts buckets = llStepLoop q2 ts buckets := by
  intro q1 q2 hmap ts
  have hlen : q1.length = q2.length := by
    have := congrArg List.length hmap
    simpa using this
  induction ts with
  | nil => intro buckets; rfl
  | cons t rest ih =>
    intro buckets
    have hkey : (fun i => (q1.getD i []).length + (buckets.getD i []).length) =
        (fun i => (q2.getD i []).length + (buckets.getD i []).length) := by
      funext i
      have h1 := map_length_getD q1 i
      have h2 := map_length_getD q2 i
      rw [← h1, ← h2, hmap]
    simp only [llStepLoop, hkey, hlen]
    exact ih _

/-! ### Claim theorems -/

/-- C1: evaluation of `AcceleratorReplica.step` at the claim's own example
(capacity 5, queue `[T(3), T(4)]`, one step).  The code computes
`min(traffic.remaining_processing_time - tot_compute_used, capacity)` rather
than `min(remaining, capacity - tot_compute_used)`, so after the first item
consumes 3, the second receives only `min(4 - 3, 5) = 1` unit and ends the
tick with `remaining_processing_time = 3` — not `2` as the claim states. -/
theorem claim1_replica_budget_eval :
    acceleratorStep 5 0 [] [Traffic.init 3 none, Traffic.init 4 none] =
      ([{ execution_time := 4, remaining_processing_time := 3, start_time := none,
          finish_time := none, expired_time := none, expired := false }],
       [{ execution_time := 3, remaining_processing_time := 0, start_time := none,
          finish_time := some 0, expired_time := none, expired := false }]) := by
  decide

/-- C2: evaluation of the `_simulate_one` loop at the claim's own example:
one capacity-1 replica, a single Traffic with `execution_time = 10` arriving
at tick 0 under a client `traffic_expired_time` of 5, run for ticks 0..5.
The loop never calls `Traffic.finished`, so no expiration sweep happens: at
tick 5 the traffic is still queued with `remaining_processing_time = 4` and
`expired = false`, and every tick's `failure_traffics` list is empty —
contradicting the claimed removal, latching and failure report at tick 5. -/
theorem claim2_no_expiration_eval :
    simRun [1] (some 5) [[10], [], [], [], [], []] (simInit 1) =
      ((⟨⟨5⟩, 0, [[⟨10, 4, some 0, none, some 5, false⟩]]⟩ : SimState),
       ([[], [], [], [], [], []] : List (List Traffic))) := by
  decide

/-- C3: evaluation of `AcceleratorReplica.step` with queue `[T(0), T(0)]`:
the collection loop removes from `self.queue` while iterating over it, so
after the first zero-remaining item is removed the iterator skips the
second.  Only the first item is returned as completed; the second stays in
the queue with `remaining_processing_time = 0` — contradicting the claim
that every zero-remaining item is removed and returned the same tick. -/
theorem claim3_replica_remove_eval :
    acceleratorStep 5 0 [] [Traffic.init 0 none, Traffic.init 0 none] =
      ([Traffic.init 0 none], [(Traffic.init 0 none).set_finish_time 0]) := by
  decide

/-- C4: evaluation of `AcceleratorReplica.step` with capacity 5 and queue
`[T(3), T(0)]`: for the zero-execution-time item the code computes
`min(0 - 3, 5) = -3`, so the item's remaining time *increases* to 3 (and
`tot_compute_used` falls back to 0).  The item does not complete on the
tick it is first stepped, contradicting the claim. -/
theorem claim4_zero_exec_eval :
    acceleratorStep 5 0 [] [Traffic.init 3 none, Traffic.init 0 none] =
      ([{ execution_time := 0, remaining_processing_time := 3, start_time := none,
          finish_time := none, expired_time := none, expired := false }],
       [{ execution_time := 3, remaining_processing_time := 0, start_time := none,
          finish_time := some 0, expired_time := none, expired := false }]) := by
  decide

/-- C5: round-robin from cursor 0 over `n ≥ 1` replicas: item `i` of the
input lands in the bucket of the replica at registration index `i % n`, and
the cursor afterwards equals `K % n` for `K` input items. -/
theorem claim5_round_robin (n : Nat) (hn : 0 < n) (ts : List Traffic) :
    (rrStep n 0 ts).1 = ts.length % n ∧
    ∀ (i : Nat) (h : i < ts.length),
      ts.get ⟨i, h⟩ ∈ (rrStep n 0 ts).2.getD (i % n) [] := by
  constructor
  · simpa [rrStep] using rr_idx_aux n ts 0 (List.replicate n []) hn
  · intro i h
    simpa [rrStep] using
      rr_mem_aux n hn ts 0 (List.replicate n []) hn (by simp) i h

/-- C5 witness: three items over two replicas — the cursor ends at
`3 % 2 = 1` and the third item (index 2) is in replica `2 % 2 = 0`'s list. -/
theorem claim5_round_robin_witness :
    (rrStep 2 0 [Traffic.init 1 none, Traffic.init 2 none, Traffic.init 3 none]).1 =
      [Traffic.init 1 none, Traffic.init 2 none, Traffic.init 3 none].length % 2 ∧
    Traffic.init 3 none ∈
      (rrStep 2 0 [Traffic.init 1 none, Traffic.init 2 none, Traffic.init 3 none]).2.getD
        (2 % 2) [] :=
  ⟨(claim5_round_robin 2 (by decide)
      [Traffic.init 1 none, Traffic.init 2 none, Traffic.init 3 none]).1,
   (claim5_round_robin 2 (by decide)
      [Traffic.init 1 none, Traffic.init 2 none, Traffic.init 3 none]).2 2 (by decide)⟩

/-- C6: least-load — each incoming item (head of the remaining input) is
appended to the bucket of the replica chosen by Python's `min`, which is
the first index minimising existing queue length plus already-assigned
traffic; plus the claim's two concrete examples (`[3,1,2]` picks index 1,
`[2,2]` picks index 0). -/
theorem claim6_least_load :
    (∀ (queues buckets : List (List Traffic)) (t : Traffic) (rest : List Traffic),
      0 < queues.length →
      ∃ sel, sel = pyMinRange
          (fun i => (queues.getD i []).length + (buckets.getD i []).length)
          queues.length ∧
        llStepLoop queues (t :: rest) buckets =
          llStepLoop queues rest (buckets.set sel (buckets.getD sel [] ++ [t])) ∧
        sel < queues.length ∧
        (∀ j, j < queues.length →
          (queues.getD sel []).length + (buckets.getD sel []).length ≤
            (queues.getD j []).length + (buckets.getD j []).length) ∧
        (∀ j, j < sel →
          (queues.getD sel []).length + (buckets.getD sel []).length <
            (queues.getD j []).length + (buckets.getD j []).length)) ∧
    llStep [[Traffic.init 1 none, Traffic.init 2 none, Traffic.init 3 none],
            [Traffic.init 4 none],
            [Traffic.init 5 none, Traffic.init 6 none]] [Traffic.init 7 none] =
      [[], [Traffic.init 7 none], []] ∧
    llStep [[Traffic.init 1 none, Traffic.init 2 none],
            [Traffic.init 3 none, Traffic.init 4 none]] [Traffic.init 7 none] =
      [[Traffic.init 7 none], []] := by
  refine ⟨?_, by decide, by decide⟩
  intro queues buckets t rest hq
  obtain ⟨hlt, hle, hfirst⟩ := pyMinRange_spec
    (fun i => (queues.getD i []).length + (buckets.getD i []).length)
    queues.length hq
  exact ⟨_, rfl, rfl, hlt, hle, hfirst⟩

/-- C6 witness: a single replica with one queued item — the chosen index is
below the replica count. -/
theorem claim6_least_load_witness :
    pyMinRange
      (fun i => (([[Traffic.init 1 none]] : List (List Traffic)).getD i []).length +
        (([[]] : List (List Traffic)).getD i []).length) 1 < 1 := by
  obtain ⟨sel, hsel, _, hlt, _, _⟩ :=
    claim6_least_load.1 [[Traffic.init 1 none]] [[]] (Traffic.init 2 none) [] (by decide)
  exact hsel ▸ hlt

/-- C7: both policies return a partition — the buckets list has one entry
per registered replica, and the concatenation of all buckets is a
permutation of the input (every input Traffic exactly once, no drops, no
duplicates), including empty buckets and the empty-input case. -/
theorem claim7_assign_partition (n idx : Nat) (hn : 0 < n) (hidx : idx < n)
    (queues : List (List Traffic)) (hq : queues.length = n) (ts : List Traffic) :
    ((rrStep n idx ts).2.length = n ∧ List.Perm (rrStep n idx ts).2.flatten ts) ∧
    ((llStep queues ts).length = n ∧ List.Perm (llStep queues ts).flatten ts) := by
  refine ⟨⟨?_, ?_⟩, ?_, ?_⟩
  · simpa [rrStep] using rr_len_aux n ts idx (List.replicate n [])
  · simpa [rrStep, flatten_replicate_nil] using
      rr_flatten_aux n ts idx (List.replicate n []) (by simp) hidx
  · simpa [llStep, hq] using ll_len_aux queues ts (List.replicate queues.length [])
  · simpa [llStep, flatten_replicate_nil] using
      ll_flatten_aux queues (by omega) ts (List.replicate queues.length []) (by simp)

/-- C7 witness: two replicas, one input item, empty queues — both policies
return two buckets whose concatenation is exactly the input. -/
theorem claim7_assign_partition_witness :
    ((rrStep 2 1 [Traffic.init 9 none]).2.length = 2 ∧
      List.Perm (rrStep 2 1 [Traffic.init 9 none]).2.flatten [Traffic.init 9 none]) ∧
    ((llStep [[], []] [Traffic.init 9 none]).length = 2 ∧
      List.Perm (llStep [[], []] [Traffic.init 9 none]).flatten [Traffic.init 9 none]) :=
  claim7_assign_partition 2 1 (by decide) (by decide) [[], []] (by decide)
    [Traffic.init 9 none]

/-- C8: once a call to `Traffic.finished` has returned true with the
`expired` latch set, calling it again on the resulting object at the same
or a later tick returns true again and leaves `expired` true and
`finish_time` unchanged. -/
theorem claim8_finished_idempotent (t : Traffic) (c1 c2 : Int) (h12 : c1 ≤ c2)
    (hfst : (t.finished c1).1 = true) (hexp : (t.finished c1).2.expired = true) :
    ((t.finished c1).2.finished c2).1 = true ∧
    ((t.finished c1).2.finished c2).2.expired = true ∧
    ((t.finished c1).2.finished c2).2.finish_time = (t.finished c1).2.finish_time := by
  by_cases hrem : t.remaining_processing_time ≤ 0
  · refine ⟨by simp [Traffic.finished, hrem], ?_, by simp [Traffic.finished, hrem]⟩
    simpa [Traffic.finished, hrem] using hexp
  · cases hs : t.start_time with
    | none => simp [Traffic.finished, hrem, hs] at hfst
    | some s =>
      cases he : t.expired_time with
      | none => simp [Traffic.finished, hrem, hs, he] at hfst
      | some e =>
        by_cases hc : s + e ≤ c1
        · have hc2 : s + e ≤ c2 := le_trans hc h12
          simp [Traffic.finished, hrem, hs, he, hc, hc2]
        · simp [Traffic.finished, hrem, hs, he, hc] at hfst

/-- C8 witness: a traffic started at tick 0 with `expired_time = 3`,
checked at tick 3 and re-checked at tick 4. -/
theorem claim8_finished_idempotent_witness :
    ((((Traffic.init 5 (some 3)).set_start_time 0).finished 3).2.finished 4).1 = true ∧
    ((((Traffic.init 5 (some 3)).set_start_time 0).finished 3).2.finished 4).2.expired = true ∧
    ((((Traffic.init 5 (some 3)).set_start_time 0).finished 3).2.finished 4).2.finish_time =
      (((Traffic.init 5 (some 3)).set_start_time 0).finished 3).2.finish_time :=
  claim8_finished_idempotent ((Traffic.init 5 (some 3)).set_start_time 0) 3 4
    (by decide) (by decide) (by decide)

/-- C9: a fresh `Clock` starts at `-1`; the first `step` returns 0; every
`step` increments the counter by exactly 1 and returns the new value; after
`n` calls the counter is `n - 1` (over `Int`, so this also covers `n = 0`). -/
theorem claim9_clock_behavior :
    (Clock.init.step).2 = 0 ∧
    (∀ c : Clock, (c.step).1.tick = c.tick + 1 ∧ (c.step).2 = (c.step).1.tick) ∧
    (∀ n : Nat, (Clock.init.stepN n).tick = (n : Int) - 1) := by
  refine ⟨rfl, fun c => ⟨rfl, rfl⟩, ?_⟩
  intro n
  induction n with
  | zero => rfl
  | succ n ih =>
    simp only [Clock.stepN, Clock.step, ih]
    push_cast
    ring

/-- C10: a load-balancer `step` call leaves the clock, the replica queues
and the traffic objects untouched: the full-state versions return the
clock and queues unchanged (round-robin writes only its cursor), the
returned assignment holds exactly the input Traffic objects, the
least-load result depends on the replicas' queues only through their
lengths, and the round-robin result does not depend on queue contents at
all. -/
theorem claim10_lb_frame (s : LBState) (ts : List Traffic) :
    ((rrStepFull s ts).1.clock = s.clock ∧ (rrStepFull s ts).1.queues = s.queues ∧
      (llStepFull s ts).1 = s) ∧
    (0 < s.queues.length → s.rrIdx < s.queues.length →
      List.Perm (rrStepFull s ts).2.flatten ts ∧
      List.Perm (llStepFull s ts).2.flatten ts) ∧
    (∀ s2 : LBState, s.queues.map List.length = s2.queues.map List.length →
      (llStepFull s ts).2 = (llStepFull s2 ts).2) ∧
    (∀ s2 : LBState, s.queues.length = s2.queues.length → s.rrIdx = s2.rrIdx →
      (rrStepFull s ts).2 = (rrStepFull s2 ts).2 ∧
      (rrStepFull s ts).1.rrIdx = (rrStepFull s2 ts).1.rrIdx) := by
  refine ⟨⟨rfl, rfl, rfl⟩, ?_, ?_, ?_⟩
  · intro h1 h2
    constructor
    · simpa [rrStepFull, rrStep, flatten_replicate_nil] using
        rr_flatten_aux s.queues.length ts s.rrIdx
          (List.replicate s.queues.length []) (by simp) h2
    · simpa [llStepFull, llStep, flatten_replicate_nil] using
        ll_flatten_aux s.queues h1 ts (List.replicate s.queues.length []) (by simp)
  · intro s2 hmap
    have hlen : s.queues.length = s2.queues.length := by
      simpa using congrArg List.length hmap
    show llStep s.queues ts = llStep s2.queues ts
    rw [llStep, llStep, hlen, ll_congr_aux s.queues s2.queues hmap]
  · intro s2 hlen hidx
    constructor
    · show (rrStep s.queues.length s.rrIdx ts).2 = (rrStep s2.queues.length s2.rrIdx ts).2
      rw [hlen, hidx]
    · show (rrStep s.queues.length s.rrIdx ts).1 = (rrStep s2.queues.length s2.rrIdx ts).1
      rw [hlen, hidx]

/-- C10 witness: a concrete two-replica state — the assignment returned by
round-robin is a permutation of the one input item. -/
theorem claim10_lb_frame_witness :
    List.Perm (rrStepFull ⟨Clock.init, [[], []], 0⟩ [Traffic.init 8 none]).2.flatten
      [Traffic.init 8 none] :=
  ((claim10_lb_frame ⟨Clock.init, [[], []], 0⟩ [Traffic.init 8 none]).2.1
    (by decide) (by decide)).1

end LBSim
